import Mathlib

/-!
# Verification of the AgentManager session lifecycle core

Shallow embedding of the data model and operations of `src/state.py`,
`src/floating_manager.py` and `src/tmux_manager.py`, together with theorems
settling the specification claims about them.

Conventions of the embedding:
* Python dicts with string keys become association lists `List (String × _)`
  in insertion order; a dict never holds two entries with the same key, which
  appears as a `Nodup` hypothesis where a proof needs it.
* The on-disk `agents.json` file is modelled at the level of the decoded JSON
  value (the textual encoding done by `json.dump`/`json.load` is the identity
  on that value and is not re-modelled).
* Status values are the literal strings the Python code stores
  (`"active"`, `"idle"`, `"waiting"`, `"recoverable"`).
-/

/-- `SessionInfo` from `src/state.py`: Claude session tracking info written by
the hook. Field defaults mirror the dataclass defaults. -/
structure SessionInfo where
  conversation_id : String := ""
  transcript_path : String := ""
  last_tool : Option String := none
  last_file : Option String := none
  updated_at : String := ""
deriving DecidableEq

/-- `Agent` from `src/state.py`: one managed AI agent session. Field defaults
mirror the dataclass defaults (`iterm_session_id=""`, `archived=False`). -/
structure Agent where
  id : String
  name : String
  agent_type : String
  tmux_session : String
  working_dir : String
  status : String
  created_at : String
  iterm_session_id : String := ""
  archived : Bool := false
deriving DecidableEq

/-! ## Liveness detector (src/floating_manager.py, refresh_agents lines 266-291)

The detector keeps two dicts keyed by tmux session name:
`session_hashes : dict[str, str]` (read with `.get`, i.e. absent = `None`) and
`session_stable_count : dict[str, int]` (read with `.get(k, 0)`, i.e. absent
behaves as `0`).  Each poll tick touches only the entries of the polled key,
so the state relevant to one session key is the pair below. -/

/-- Per-session-key detector state: the stored fingerprint
(`session_hashes.get(key)`) and the stability counter
(`session_stable_count.get(key, 0)`). -/
structure DetectState where
  prevHash : Option String
  stableCount : Nat
deriving DecidableEq

/-- Detector state before a key has ever been polled: no stored fingerprint,
counter defaults to 0. -/
def initDetect : DetectState := { prevHash := none, stableCount := 0 }

/-- One poll tick with a successful capture whose fingerprint is `fp`
(the md5 hex digest of the captured text; the digest is deterministic and the
short texts used in the concrete scenarios below have distinct digests, so the
fingerprint stands in for the captured text).  Mirrors lines 273-291 of
`refresh_agents`: if no previous hash is stored or the new hash differs, the
status is `"active"` and the stable count is set to 0; otherwise the count is
incremented and the status is `"waiting"` once the count has reached 3, else
`"active"`.  The stored hash is updated in both branches (line 291). -/
def pollTick (st : DetectState) (fp : String) : String × DetectState :=
  if st.prevHash = none ∨ st.prevHash ≠ some fp then
    ("active", { prevHash := some fp, stableCount := 0 })
  else
    (if 3 ≤ st.stableCount + 1 then "waiting" else "active",
     { prevHash := some fp, stableCount := st.stableCount + 1 })

/-- One poll tick for a session key that is in the live session set, taking the
result of `get_session_text_hash` (`none` = the session vanished or the
capture returned no text).  Mirrors lines 266-291 of `refresh_agents`: on a
failed capture the status is `"idle"` and the loop `continue`s, leaving both
the stored hash and the stable count untouched. -/
def pollOnce (st : DetectState) (capture : Option String) : String × DetectState :=
  match capture with
  | none => ("idle", st)
  | some fp => pollTick st fp

/-- Run `pollOnce` over a sequence of capture results (one per tick),
returning the status observed at each tick and the final detector state. -/
def pollTrace (st : DetectState) : List (Option String) → List String × DetectState
  | [] => ([], st)
  | c :: cs =>
    let r := pollOnce st c
    let rest := pollTrace r.2 cs
    (r.1 :: rest.1, rest.2)

/-- C1: Liveness Detector transition rule.  On a successful capture: if no
previous fingerprint is stored or the new fingerprint differs from the stored
one, the status becomes `"active"` and the stability counter is reset to 0;
if the fingerprint equals the stored one, the counter is incremented by
exactly 1 and the status is `"active"` until the counter reaches 3, at which
point it is `"waiting"`.  The poll sequence with captured texts
`["a","a","a","a","b"]` yields statuses
`[active, active, active, waiting, active]`. -/
theorem pollTick_transition_rule :
    (∀ (st : DetectState) (fp : String),
        st.prevHash = none ∨ st.prevHash ≠ some fp →
        pollTick st fp = ("active", { prevHash := some fp, stableCount := 0 })) ∧
    (∀ (st : DetectState) (fp : String),
        st.prevHash = some fp →
        pollTick st fp =
          ((if 3 ≤ st.stableCount + 1 then "waiting" else "active"),
           { prevHash := some fp, stableCount := st.stableCount + 1 })) ∧
    (pollTrace initDetect [some "a", some "a", some "a", some "a", some "b"]).1 =
      ["active", "active", "active", "waiting", "active"] := by
  refine ⟨?_, ?_, ?_⟩
  · intro st fp h
    unfold pollTick
    rw [if_pos h]
  · intro st fp h
    unfold pollTick
    rw [if_neg]
    simp [h]
  · decide

/-- Witness for C1: concrete instances of both transition hypotheses. -/
theorem pollTick_transition_rule_witness :
    pollTick initDetect "a" = ("active", { prevHash := some "a", stableCount := 0 }) ∧
    pollTick { prevHash := some "a", stableCount := 1 } "a" =
      ("active", { prevHash := some "a", stableCount := 2 }) := by
  constructor
  · exact pollTick_transition_rule.1 initDetect "a" (Or.inl rfl)
  · have h := pollTick_transition_rule.2.1 { prevHash := some "a", stableCount := 1 } "a" rfl
    simpa using h

/-- C6 counterexample: two successful identical polls mark the key `"active"`
with stability counter 1; a failed capture then yields `"idle"` but the
counter stays at 1 rather than being cleared to 0, and the next successful
poll with the same text continues counting at 2 (the claim's clearing rule
would give 0 after the failure and 1 after that poll). -/
theorem pollOnce_fail_keeps_counter_cex :
    (pollTrace initDetect [some "a", some "a"]).1 = ["active", "active"] ∧
    (pollTrace initDetect [some "a", some "a", none]).1 =
      ["active", "active", "idle"] ∧
    (pollTrace initDetect [some "a", some "a", none]).2.stableCount = 1 ∧
    (pollTrace initDetect [some "a", some "a", none, some "a"]).2.stableCount = 2 := by
  decide

/-- C6 amended: when the text capture fails on a poll tick, the status becomes
`"idle"` and the per-key detector state — stored fingerprint and stability
counter — is left completely unchanged, so a later successful poll compares
against the previously stored fingerprint and continues the counter from its
retained value. -/
theorem pollOnce_capture_fail (st : DetectState) :
    pollOnce st none = ("idle", st) := rfl

/-! ## Session Store (src/state.py, StateManager)

`StateManager` holds the in-memory dict `agents` plus, for the frame-effect
claims, the last snapshot written to `AGENTS_FILE` (`disk`) and a counter of
how many `save()` calls (i.e. `json.dump` writes) have happened (`writes`). -/

/-- The serialized form of one Agent record in `agents.json`, i.e. the dict
produced by `Agent.to_dict` / consumed by `Agent.from_dict`.  The fields that
`from_dict` tolerates being absent (migration of `tmux_session`, and the
dataclass defaults of `iterm_session_id` and `archived`) are `Option`s;
`to_dict` always writes all of them. -/
structure AgentData where
  id : String
  name : String
  agent_type : String
  tmux_session : Option String
  working_dir : String
  status : String
  created_at : String
  iterm_session_id : Option String
  archived : Option Bool
deriving DecidableEq

/-- `Agent.to_dict` (`dataclasses.asdict`): every field is written. -/
def Agent.to_dict (a : Agent) : AgentData :=
  { id := a.id, name := a.name, agent_type := a.agent_type,
    tmux_session := some a.tmux_session, working_dir := a.working_dir,
    status := a.status, created_at := a.created_at,
    iterm_session_id := some a.iterm_session_id, archived := some a.archived }

/-- `Agent.from_dict` on a record whose required fields are present (the
exception behaviour on arbitrary decoded JSON is modelled separately by
`from_dict_raises` below).  Migration: if `tmux_session` is absent it is taken
from `iterm_session_id` when that key is present, else set to `""`; absent
`iterm_session_id` / `archived` fall back to the dataclass defaults. -/
def Agent.from_dict (d : AgentData) : Agent :=
  { id := d.id, name := d.name, agent_type := d.agent_type,
    tmux_session :=
      match d.tmux_session with
      | some t => t
      | none => (d.iterm_session_id.getD ""),
    working_dir := d.working_dir, status := d.status, created_at := d.created_at,
    iterm_session_id := d.iterm_session_id.getD "",
    archived := d.archived.getD false }

/-- `StateManager`: the in-memory agents dict, the decoded content of the
on-disk `agents.json` snapshot, and the number of disk writes performed. -/
structure StateManager where
  agents : List (String × Agent)
  disk : List (String × AgentData)
  writes : Nat
deriving DecidableEq

/-- Python `agent_id in self.agents`. -/
def dictContains (l : List (String × Agent)) (k : String) : Bool :=
  l.any (fun p => p.1 == k)

/-- Python `self.agents[agent_id] = agent`: replace in place if the key
exists, else append (dict insertion order). -/
def dictSet (l : List (String × Agent)) (k : String) (v : Agent) :
    List (String × Agent) :=
  if dictContains l k then l.map (fun p => if p.1 == k then (p.1, v) else p)
  else l ++ [(k, v)]

/-- Python `self.agents.get(agent_id)`. -/
def dictGet (l : List (String × Agent)) (k : String) : Option Agent :=
  (l.find? (fun p => p.1 == k)).map Prod.snd

/-- `StateManager.save`: serialize every agent with `to_dict` and write the
whole snapshot to `AGENTS_FILE`. -/
def saveDict (agents : List (String × Agent)) : List (String × AgentData) :=
  agents.map (fun p => (p.1, p.2.to_dict))

/-- `StateManager.save` as a state transformer: the disk now holds the
serialized snapshot and one more write has happened. -/
def StateManager.save (s : StateManager) : StateManager :=
  { s with disk := saveDict s.agents, writes := s.writes + 1 }

/-- Reading the snapshot back: `StateManager.load` applied to a well-formed
saved file, i.e. `Agent.from_dict` on each record. -/
def loadDict (data : List (String × AgentData)) : List (String × Agent) :=
  data.map (fun p => (p.1, Agent.from_dict p.2))

/-- `StateManager.add_agent`: insert, then persist. -/
def StateManager.add_agent (s : StateManager) (a : Agent) : StateManager :=
  StateManager.save { s with agents := dictSet s.agents a.id a }

/-- `StateManager.remove_agent`: if present, delete and persist; else no-op. -/
def StateManager.remove_agent (s : StateManager) (agent_id : String) :
    StateManager :=
  if dictContains s.agents agent_id then
    StateManager.save { s with agents := s.agents.filter (fun p => p.1 != agent_id) }
  else s

/-- `StateManager.update_status`: if present, mutate the status field in
memory; deliberately no `save()` (comment in source: too frequent). -/
def StateManager.update_status (s : StateManager) (agent_id status : String) :
    StateManager :=
  if dictContains s.agents agent_id then
    { s with agents := s.agents.map (fun p =>
        if p.1 == agent_id then (p.1, { p.2 with status := status }) else p) }
  else s

/-- `StateManager.rename_agent`: if present, mutate the name and persist. -/
def StateManager.rename_agent (s : StateManager) (agent_id new_name : String) :
    StateManager :=
  if dictContains s.agents agent_id then
    StateManager.save { s with agents := s.agents.map (fun p =>
        if p.1 == agent_id then (p.1, { p.2 with name := new_name }) else p) }
  else s

/-- `StateManager.archive_agent`: if present, set `archived` and persist. -/
def StateManager.archive_agent (s : StateManager) (agent_id : String) :
    StateManager :=
  if dictContains s.agents agent_id then
    StateManager.save { s with agents := s.agents.map (fun p =>
        if p.1 == agent_id then (p.1, { p.2 with archived := true }) else p) }
  else s

/-- `StateManager.unarchive_agent`: if present, clear `archived` and persist. -/
def StateManager.unarchive_agent (s : StateManager) (agent_id : String) :
    StateManager :=
  if dictContains s.agents agent_id then
    StateManager.save { s with agents := s.agents.map (fun p =>
        if p.1 == agent_id then (p.1, { p.2 with archived := false }) else p) }
  else s

/-- The comparison used by `get_all_agents`: Python
`key=lambda a: a.created_at` compares the `created_at` strings. -/
def leCreated (x y : Agent) : Bool := decide (x.created_at ≤ y.created_at)

/-- `StateManager.get_all_agents`: the agents with the requested `archived`
flag, sorted ascending by `created_at` (Python `sorted` with that key; a
stable merge sort, like CPython timsort on this comparison). -/
def StateManager.get_all_agents (s : StateManager) (archived : Bool) :
    List Agent :=
  ((s.agents.map Prod.snd).filter (fun a => a.archived == archived)).mergeSort
    leCreated

/-- Python truthiness test `session_info and session_info.conversation_id`:
the lookup returned an object and its `conversation_id` is non-empty. -/
def recoverableB (info : Option SessionInfo) : Bool :=
  match info with
  | some si => si.conversation_id != ""
  | none => false

/-- The `dead_ids` list built by `prune_dead_sessions`: ids of agents whose
tmux session is not in the valid set and which have no recoverable
SessionInfo. -/
def deadIds (agents : List (String × Agent))
    (infos : String → Option SessionInfo) (valid : List String) : List String :=
  (agents.filter (fun p =>
      !(decide (p.2.tmux_session ∈ valid)) &&
      !(recoverableB (infos p.2.tmux_session)))).map Prod.fst

/-- `StateManager.prune_dead_sessions`.  `infos` models
`self.get_session_info` (one metadata-file read per key); `valid` models the
set `valid_tmux_sessions`.  If the set is empty, return immediately;
otherwise delete every agent in `dead_ids` and persist only when `dead_ids`
is non-empty. -/
def StateManager.prune_dead_sessions (s : StateManager)
    (infos : String → Option SessionInfo) (valid : List String) : StateManager :=
  if valid.isEmpty then s
  else
    let dead_ids := deadIds s.agents infos valid
    let pruned := { s with agents := s.agents.filter (fun p => !(decide (p.1 ∈ dead_ids))) }
    if dead_ids.isEmpty then pruned else pruned.save

/-- C3: the empty-set guard.  Pruning with the empty valid-key set returns the
`StateManager` unchanged: no agent removed, no field modified, no disk write
(the whole state record, including `disk` and `writes`, is equal). -/
theorem prune_empty_noop (s : StateManager)
    (infos : String → Option SessionInfo) :
    s.prune_dead_sessions infos [] = s := rfl

/-- Round trip of one record: `from_dict` inverts `to_dict`. -/
theorem from_dict_to_dict (a : Agent) : Agent.from_dict a.to_dict = a := rfl

/-- C9: persistence round-trip.  Saving the agent mapping and loading the
saved snapshot back reproduces the agent mapping exactly — in particular
every agent comes back with the same `id`, `name`, `agent_type`,
`tmux_session`, `working_dir`, `created_at` and `archived` fields (the
equality is even stronger than the claim, which allows `status` to differ). -/
theorem save_load_roundtrip (agents : List (String × Agent)) :
    loadDict (saveDict agents) = agents := by
  induction agents with
  | nil => rfl
  | cons p rest ih =>
    simp only [saveDict, loadDict, List.map_cons] at *
    rw [from_dict_to_dict]
    simpa using ih

/-- In a dict (no duplicate keys) two entries with the same key are the same
entry. -/
theorem nodupKeys_eq {l : List (String × Agent)}
    (h : (l.map Prod.fst).Nodup) {k : String} {a b : Agent}
    (ha : (k, a) ∈ l) (hb : (k, b) ∈ l) : a = b := by
  induction l with
  | nil => cases ha
  | cons p rest ih =>
    simp only [List.map_cons, List.nodup_cons] at h
    rcases List.mem_cons.mp ha with ha1 | ha2
    · rcases List.mem_cons.mp hb with hb1 | hb2
      · exact congrArg Prod.snd (ha1.trans hb1.symm)
      · exfalso
        apply h.1
        have hk : k = p.1 := congrArg Prod.fst ha1
        rw [← hk]
        exact List.mem_map.mpr ⟨(k, b), hb2, rfl⟩
    · rcases List.mem_cons.mp hb with hb1 | hb2
      · exfalso
        apply h.1
        have hk : k = p.1 := congrArg Prod.fst hb1
        rw [← hk]
        exact List.mem_map.mpr ⟨(k, a), ha2, rfl⟩
      · exact ih h.2 ha2 hb2

/-- With a non-empty valid set, pruning deletes exactly the entries whose key
is in `dead_ids` (the subsequent conditional `save` does not change
`agents`). -/
theorem prune_agents_filter (s : StateManager)
    (infos : String → Option SessionInfo) (valid : List String)
    (h : valid ≠ []) :
    (s.prune_dead_sessions infos valid).agents =
      s.agents.filter
        (fun p => !(decide (p.1 ∈ deadIds s.agents infos valid))) := by
  unfold StateManager.prune_dead_sessions
  cases valid with
  | nil => exact absurd rfl h
  | cons v vs =>
    rw [if_neg (by simp)]
    dsimp only
    split <;> rfl

/-- Characterization of membership in `dead_ids`. -/
theorem mem_deadIds {agents : List (String × Agent)}
    {infos : String → Option SessionInfo} {valid : List String} {k : String} :
    k ∈ deadIds agents infos valid ↔
      ∃ a : Agent, (k, a) ∈ agents ∧ a.tmux_session ∉ valid ∧
        recoverableB (infos a.tmux_session) = false := by
  unfold deadIds
  simp only [List.mem_map, List.mem_filter, Bool.and_eq_true, Bool.not_eq_true',
    decide_eq_false_iff_not]
  constructor
  · rintro ⟨⟨k1, a⟩, ⟨hm, hnv, hnr⟩, rfl⟩
    exact ⟨a, hm, hnv, hnr⟩
  · rintro ⟨a, hm, hnv, hnr⟩
    exact ⟨(k, a), ⟨hm, hnv, hnr⟩, rfl⟩

/-- C2: prune recoverability rule.  For any store, any lookup of per-session
metadata and any non-empty valid set: an agent whose session key is not valid
and has no SessionInfo with non-empty `conversation_id` is deleted; an agent
whose session key is not valid but has such a SessionInfo is kept; an agent
whose session key is valid is kept. -/
theorem prune_recoverability (s : StateManager)
    (infos : String → Option SessionInfo) (valid : List String)
    (agent_id : String) (a : Agent) (hvalid : valid ≠ [])
    (hnodup : (s.agents.map Prod.fst).Nodup)
    (hmem : (agent_id, a) ∈ s.agents) :
    (a.tmux_session ∉ valid → recoverableB (infos a.tmux_session) = false →
      (agent_id, a) ∉ (s.prune_dead_sessions infos valid).agents) ∧
    (a.tmux_session ∉ valid → recoverableB (infos a.tmux_session) = true →
      (agent_id, a) ∈ (s.prune_dead_sessions infos valid).agents) ∧
    (a.tmux_session ∈ valid →
      (agent_id, a) ∈ (s.prune_dead_sessions infos valid).agents) := by
  have hag := prune_agents_filter s infos valid hvalid
  refine ⟨?_, ?_, ?_⟩
  · intro hnv hnr hcontra
    rw [hag] at hcontra
    have hcond := (List.mem_filter.mp hcontra).2
    have hdead : agent_id ∈ deadIds s.agents infos valid :=
      mem_deadIds.mpr ⟨a, hmem, hnv, hnr⟩
    simp [hdead] at hcond
  · intro hnv hr
    rw [hag]
    refine List.mem_filter.mpr ⟨hmem, ?_⟩
    have hnd : agent_id ∉ deadIds s.agents infos valid := by
      intro hd
      rcases mem_deadIds.mp hd with ⟨b, hbm, hbnv, hbnr⟩
      have hba : b = a := nodupKeys_eq hnodup hbm hmem
      rw [hba, hr] at hbnr
      cases hbnr
    simp [hnd]
  · intro hv
    rw [hag]
    refine List.mem_filter.mpr ⟨hmem, ?_⟩
    have hnd : agent_id ∉ deadIds s.agents infos valid := by
      intro hd
      rcases mem_deadIds.mp hd with ⟨b, hbm, hbnv, hbnr⟩
      have hba : b = a := nodupKeys_eq hnodup hbm hmem
      rw [hba] at hbnv
      exact hbnv hv
    simp [hnd]

/-- Concrete agents used by the witnesses: `agentW1` has a live session,
`agentW2` a dead but recoverable one, `agentW3` a dead unrecoverable one. -/
def agentW1 : Agent :=
  { id := "i1", name := "one", agent_type := "claude", tmux_session := "s1",
    working_dir := "/w", status := "idle", created_at := "2024-01-01T00:00:00" }

def agentW2 : Agent :=
  { id := "i2", name := "two", agent_type := "claude", tmux_session := "s2",
    working_dir := "/w", status := "idle", created_at := "2024-01-02T00:00:00" }

def agentW3 : Agent :=
  { id := "i3", name := "three", agent_type := "gemini", tmux_session := "s3",
    working_dir := "/w", status := "idle", created_at := "2024-01-03T00:00:00" }

/-- Concrete store holding the three witness agents. -/
def storeW : StateManager :=
  { agents := [("i1", agentW1), ("i2", agentW2), ("i3", agentW3)],
    disk := [], writes := 0 }

/-- Metadata lookup for the witnesses: only session `"s2"` has a saved
conversation id. -/
def infosW : String → Option SessionInfo :=
  fun k => if k == "s2" then some { conversation_id := "c-2" } else none

/-- Witness for C2: with live set `{"s1"}`, pruning `storeW` deletes the
unrecoverable dead agent, keeps the recoverable dead one and keeps the live
one. -/
theorem prune_recoverability_witness :
    ("i3", agentW3) ∉ (storeW.prune_dead_sessions infosW ["s1"]).agents ∧
    ("i2", agentW2) ∈ (storeW.prune_dead_sessions infosW ["s1"]).agents ∧
    ("i1", agentW1) ∈ (storeW.prune_dead_sessions infosW ["s1"]).agents := by
  have h3 := prune_recoverability storeW infosW ["s1"] "i3" agentW3
    (by decide) (by decide) (by decide)
  have h2 := prune_recoverability storeW infosW ["s1"] "i2" agentW2
    (by decide) (by decide) (by decide)
  have h1 := prune_recoverability storeW infosW ["s1"] "i1" agentW1
    (by decide) (by decide) (by decide)
  exact ⟨h3.1 (by decide) (by decide), h2.2.1 (by decide) (by decide),
    h1.2.2 (by decide)⟩

/-- `get_all_agents` returns a permutation of the agents with the requested
`archived` flag. -/
theorem get_all_agents_perm (s : StateManager) (b : Bool) :
    (s.get_all_agents b).Perm
      ((s.agents.map Prod.snd).filter (fun a => a.archived == b)) :=
  List.mergeSort_perm _ _

/-- Each `get_all_agents` listing is ordered ascending by `created_at`. -/
theorem get_all_agents_sorted (s : StateManager) (b : Bool) :
    List.Pairwise (fun x y : Agent => x.created_at ≤ y.created_at)
      (s.get_all_agents b) := by
  have htrans : ∀ (x y z : Agent),
      leCreated x y → leCreated y z → leCreated x z := by
    intro x y z hxy hyz
    simp only [leCreated, decide_eq_true_eq] at *
    exact le_trans hxy hyz
  have htotal : ∀ (x y : Agent), leCreated x y || leCreated y x := by
    intro x y
    rcases le_total x.created_at y.created_at with h | h <;>
      simp [leCreated, h]
  have h := List.sorted_mergeSort htrans htotal
    ((s.agents.map Prod.snd).filter (fun a => a.archived == b))
  exact h.imp (fun hxy => by simpa [leCreated] using hxy)

/-- C4: listing partition and order.  For every store state (in particular
every state reachable by create/kill/archive/unarchive),
`get_all_agents false` and `get_all_agents true` together are a permutation
of the full agent set (every agent exactly once), no agent occurs in both,
and each listing is ordered ascending by `created_at`. -/
theorem get_all_agents_partition (s : StateManager) :
    ((s.get_all_agents false) ++ (s.get_all_agents true)).Perm
      (s.agents.map Prod.snd) ∧
    (∀ a : Agent, a ∈ s.get_all_agents false → a ∉ s.get_all_agents true) ∧
    List.Pairwise (fun x y : Agent => x.created_at ≤ y.created_at)
      (s.get_all_agents false) ∧
    List.Pairwise (fun x y : Agent => x.created_at ≤ y.created_at)
      (s.get_all_agents true) := by
  refine ⟨?_, ?_, get_all_agents_sorted s false, get_all_agents_sorted s true⟩
  · have hfun : (fun a : Agent => a.archived == true) =
        (fun a : Agent => !(a.archived == false)) := by
      funext a; cases a.archived <;> rfl
    have h4 := (get_all_agents_perm s false).append (get_all_agents_perm s true)
    rw [hfun] at h4
    exact h4.trans
      (List.filter_append_perm (fun a : Agent => a.archived == false)
        (s.agents.map Prod.snd))
  · intro a haf hat
    have h1 := (get_all_agents_perm s false).mem_iff.mp haf
    have h2 := (get_all_agents_perm s true).mem_iff.mp hat
    have hb1 := (List.mem_filter.mp h1).2
    have hb2 := (List.mem_filter.mp h2).2
    simp only [beq_iff_eq] at hb1 hb2
    rw [hb1] at hb2
    cases hb2

/-! ## Session creation (src/floating_manager.py `_new_session` lines 478-534,
src/tmux_manager.py `create_session` lines 53-85)

`create_session` returns the new session name on success and `None` when the
`tmux new-session` command fails; the call inside `_new_session` sits in a
`try` whose `except Exception` swallows any raised error.  The outcome of the
multiplexer call is therefore one of three cases. -/

/-- Outcome of the `self.tmux.create_session(...)` call inside the `create()`
worker of `_new_session`. -/
inductive CreateOutcome where
  | raised
  | failed
  | created (tmux_session : String)

/-- The store/result effect of the `create()` worker in `_new_session` after
the name and working-directory dialogs have succeeded: only when
`create_session` returned a session name is an `Agent` built (with
`status="idle"`, empty legacy field, not archived) and added to the store via
`add_agent`; a `None` return or a raised exception leaves the store untouched
and reports failure (the Boolean models whether the caller is told the agent
was created). -/
def new_session (s : StateManager) (outcome : CreateOutcome)
    (agent_id name agent_type working_dir created_at : String) :
    StateManager × Bool :=
  match outcome with
  | CreateOutcome.created tmux =>
    (s.add_agent
      { id := agent_id, name := name, agent_type := agent_type,
        tmux_session := tmux, working_dir := working_dir, status := "idle",
        created_at := created_at }, true)
  | _ => (s, false)

/-- Looking up the key just set returns the value set, when the key was
already present (in-place replacement branch of `dictSet`). -/
theorem dictGet_map_set {l : List (String × Agent)} {k : String} (v : Agent)
    (hc : dictContains l k = true) :
    dictGet (l.map (fun p => if p.1 == k then (p.1, v) else p)) k = some v := by
  induction l with
  | nil => cases hc
  | cons p rest ih =>
    by_cases hp : (p.1 == k) = true
    · unfold dictGet
      have hstep : List.find? (fun q => q.1 == k)
          (List.map (fun q => if q.1 == k then (q.1, v) else q) (p :: rest)) =
          some (p.1, v) := by
        rw [List.map_cons, if_pos hp]
        exact List.find?_cons_of_pos _ hp
      rw [hstep]
      rfl
    · have hrest : dictContains rest k = true := by
        unfold dictContains at hc
        simp only [List.any_cons] at hc
        rcases Bool.or_eq_true_iff.mp hc with h | h
        · exact absurd h hp
        · exact h
      unfold dictGet at ih ⊢
      have hstep : List.find? (fun q => q.1 == k)
          (List.map (fun q => if q.1 == k then (q.1, v) else q) (p :: rest)) =
          List.find? (fun q => q.1 == k)
            (List.map (fun q => if q.1 == k then (q.1, v) else q) rest) := by
        rw [List.map_cons, if_neg hp]
        exact List.find?_cons_of_neg _ hp
      rw [hstep]
      exact ih hrest

/-- Looking up the key just set returns the value set, when the key was
absent (append branch of `dictSet`). -/
theorem dictGet_append_set {l : List (String × Agent)} {k : String} (v : Agent)
    (hc : dictContains l k = false) :
    dictGet (l ++ [(k, v)]) k = some v := by
  induction l with
  | nil => simp [dictGet]
  | cons p rest ih =>
    unfold dictContains at hc
    simp only [List.any_cons, Bool.or_eq_false_iff] at hc
    unfold dictGet at ih ⊢
    rw [List.cons_append]
    have hstep : List.find? (fun q => q.1 == k) (p :: (rest ++ [(k, v)])) =
        List.find? (fun q => q.1 == k) (rest ++ [(k, v)]) :=
      List.find?_cons_of_neg _ (by simp [hc.1])
    rw [hstep]
    exact ih hc.2

/-- `dictSet` makes the inserted value visible under its key. -/
theorem dictGet_dictSet (l : List (String × Agent)) (k : String) (v : Agent) :
    dictGet (dictSet l k v) k = some v := by
  unfold dictSet
  by_cases hc : dictContains l k = true
  · rw [if_pos hc]
    exact dictGet_map_set v hc
  · rw [if_neg hc]
    exact dictGet_append_set v (by simpa using hc)

/-- C5: create atomicity.  If the multiplexer call raised or returned no
session name, the whole `StateManager` (agents, disk snapshot, write count)
is unchanged and the caller is told the operation failed; only when a session
name was returned is the Agent added — it is then visible in the store under
its id with exactly the requested fields, and the snapshot is persisted by
one additional disk write. -/
theorem new_session_atomic (s : StateManager)
    (agent_id name agent_type working_dir created_at tmux : String) :
    (new_session s CreateOutcome.raised agent_id name agent_type working_dir
        created_at = (s, false)) ∧
    (new_session s CreateOutcome.failed agent_id name agent_type working_dir
        created_at = (s, false)) ∧
    ((new_session s (CreateOutcome.created tmux) agent_id name agent_type
        working_dir created_at).2 = true ∧
      dictGet (new_session s (CreateOutcome.created tmux) agent_id name
          agent_type working_dir created_at).1.agents agent_id =
        some { id := agent_id, name := name, agent_type := agent_type,
               tmux_session := tmux, working_dir := working_dir,
               status := "idle", created_at := created_at } ∧
      (new_session s (CreateOutcome.created tmux) agent_id name agent_type
          working_dir created_at).1.disk =
        saveDict (new_session s (CreateOutcome.created tmux) agent_id name
          agent_type working_dir created_at).1.agents ∧
      (new_session s (CreateOutcome.created tmux) agent_id name agent_type
          working_dir created_at).1.writes = s.writes + 1) := by
  refine ⟨rfl, rfl, rfl, ?_, rfl, rfl⟩
  exact dictGet_dictSet s.agents agent_id _

/-- A single `update_status` call touches neither the disk snapshot nor the
write count (both its branches). -/
theorem update_status_frame (s : StateManager) (agent_id status : String) :
    (s.update_status agent_id status).disk = s.disk ∧
    (s.update_status agent_id status).writes = s.writes := by
  unfold StateManager.update_status
  split <;> exact ⟨rfl, rfl⟩

/-- C8: status updates are never persisted.  Any sequence of
`update_status` calls leaves the on-disk snapshot and the write count exactly
as they were, whereas `remove_agent`, `rename_agent`, `archive_agent` and
`unarchive_agent` each perform one disk write per mutation (key present),
leaving the serialized new agent dict on disk. -/
theorem update_status_never_persists (s : StateManager) :
    (∀ calls : List (String × String),
        ((calls.foldl (fun t c => t.update_status c.1 c.2) s).disk = s.disk ∧
         (calls.foldl (fun t c => t.update_status c.1 c.2) s).writes =
           s.writes)) ∧
    (∀ agent_id : String, dictContains s.agents agent_id = true →
        ((s.remove_agent agent_id).writes = s.writes + 1 ∧
         (s.remove_agent agent_id).disk =
           saveDict (s.remove_agent agent_id).agents)) ∧
    (∀ (agent_id new_name : String), dictContains s.agents agent_id = true →
        ((s.rename_agent agent_id new_name).writes = s.writes + 1 ∧
         (s.rename_agent agent_id new_name).disk =
           saveDict (s.rename_agent agent_id new_name).agents)) ∧
    (∀ agent_id : String, dictContains s.agents agent_id = true →
        ((s.archive_agent agent_id).writes = s.writes + 1 ∧
         (s.archive_agent agent_id).disk =
           saveDict (s.archive_agent agent_id).agents)) ∧
    (∀ agent_id : String, dictContains s.agents agent_id = true →
        ((s.unarchive_agent agent_id).writes = s.writes + 1 ∧
         (s.unarchive_agent agent_id).disk =
           saveDict (s.unarchive_agent agent_id).agents)) := by
  refine ⟨?_, ?_, ?_, ?_, ?_⟩
  · intro calls
    induction calls generalizing s with
    | nil => exact ⟨rfl, rfl⟩
    | cons c cs ih =>
      simp only [List.foldl_cons]
      have h1 := update_status_frame s c.1 c.2
      have h2 := ih (s.update_status c.1 c.2)
      exact ⟨h2.1.trans h1.1, h2.2.trans h1.2⟩
  · intro agent_id h
    unfold StateManager.remove_agent
    rw [if_pos h]
    exact ⟨rfl, rfl⟩
  · intro agent_id new_name h
    unfold StateManager.rename_agent
    rw [if_pos h]
    exact ⟨rfl, rfl⟩
  · intro agent_id h
    unfold StateManager.archive_agent
    rw [if_pos h]
    exact ⟨rfl, rfl⟩
  · intro agent_id h
    unfold StateManager.unarchive_agent
    rw [if_pos h]
    exact ⟨rfl, rfl⟩

/-- Witness for C8 at the concrete store `storeW`. -/
theorem update_status_never_persists_witness :
    ((([("i1", "waiting")] : List (String × String)).foldl
        (fun t c => t.update_status c.1 c.2) storeW).disk = storeW.disk) ∧
    ((storeW.remove_agent "i1").writes = storeW.writes + 1) ∧
    ((storeW.rename_agent "i1" "renamed").writes = storeW.writes + 1) ∧
    ((storeW.archive_agent "i1").writes = storeW.writes + 1) ∧
    ((storeW.unarchive_agent "i1").writes = storeW.writes + 1) :=
  ⟨((update_status_never_persists storeW).1 [("i1", "waiting")]).1,
    ((update_status_never_persists storeW).2.1 "i1" (by decide)).1,
    ((update_status_never_persists storeW).2.2.1 "i1" "renamed" (by decide)).1,
    ((update_status_never_persists storeW).2.2.2.1 "i1" (by decide)).1,
    ((update_status_never_persists storeW).2.2.2.2 "i1" (by decide)).1⟩

/-! ## Exception behaviour of loading persisted state (src/state.py)

`StateManager.load` wraps `json.load` plus `Agent.from_dict` in
`try ... except (json.JSONDecodeError, KeyError)`.  To settle what can escape
that handler we model the decoded JSON value of `agents.json` and, for each
shape, whether the Python code raises.  `Agent.from_dict` applied to a decoded
JSON value can only raise `TypeError` (from item assignment on a non-dict, or
from `cls(**data)` with missing/unexpected keys; dataclasses do not validate
field values) or `AttributeError` (`.get` on a non-dict) — never
`JSONDecodeError` or `KeyError` — so none of its exceptions are caught. -/

/-- A decoded JSON value (floats are irrelevant to these claims, numbers are
modelled as integers). -/
inductive Json where
  | null
  | bool (b : Bool)
  | num (n : Int)
  | str (s : String)
  | arr (elems : List Json)
  | obj (fields : List (String × Json))

/-- `key in data` for a decoded JSON object. -/
def hasKey (fields : List (String × Json)) (k : String) : Bool :=
  fields.any (fun p => p.1 == k)

/-- The keyword names `Agent.__init__` accepts. -/
def agentFieldNames : List String :=
  ["id", "name", "agent_type", "tmux_session", "working_dir", "status",
   "created_at", "iterm_session_id", "archived"]

/-- The keyword names `Agent.__init__` requires (the other two have dataclass
defaults). -/
def requiredAgentFields : List String :=
  ["id", "name", "agent_type", "tmux_session", "working_dir", "status",
   "created_at"]

/-- Whether Python `Agent.from_dict(data)` raises on a decoded JSON value.
On a dict: both migration branches only ever add a `"tmux_session"` key (whose
value cannot affect raising), after which `cls(**data)` raises `TypeError`
exactly when some key is not an `Agent` field name or some required field
name is missing.  On any non-dict value the method raises (`TypeError` from
`in`/item assignment/`cls(**data)`, or `AttributeError` from `.get`). -/
def from_dict_raises (data : Json) : Bool :=
  match data with
  | Json.obj fields =>
    let fields2 :=
      if !(hasKey fields "tmux_session") then
        fields ++ [("tmux_session", Json.str "")]
      else fields
    (fields2.any (fun p => !(agentFieldNames.contains p.1))) ||
      (requiredAgentFields.any (fun k => !(hasKey fields2 k)))
  | _ => true

/-- The content of `AGENTS_FILE` as seen by `StateManager.load`: the file may
be absent, present but not decodable as JSON, or decodable to a JSON value. -/
inductive AgentsFile where
  | absent
  | undecodable
  | decoded (j : Json)

/-- Whether `StateManager.load` lets an exception escape.  An absent file
takes the `else` branch; an undecodable file raises `JSONDecodeError`, which
the handler catches (agents are reset to `{}`); a decoded non-object raises
`AttributeError` at `data.items()` (uncaught); a decoded object raises
exactly when `Agent.from_dict` raises on one of its records (uncaught, since
`from_dict` raises only `TypeError`/`AttributeError`). -/
def load_raises (fc : AgentsFile) : Bool :=
  match fc with
  | AgentsFile.absent => false
  | AgentsFile.undecodable => false
  | AgentsFile.decoded j =>
    match j with
    | Json.obj entries => entries.any (fun p => from_dict_raises p.2)
    | _ => true

/-- C7 (code bug): the corrupt-state tolerance claimed by the spec fails on
well-formed JSON of the wrong shape.  A file decoding to `{"a": {}}` (valid
JSON, record missing every required Agent field) makes `Agent.from_dict`
raise `TypeError`, which `except (json.JSONDecodeError, KeyError)` does not
catch, so `StateManager.load` raises instead of starting from an empty store;
a syntactically undecodable file, by contrast, is caught as the spec
describes. -/
theorem load_raises_on_wellformed_json :
    load_raises (AgentsFile.decoded (Json.obj [("a", Json.obj [])])) = true ∧
    load_raises AgentsFile.undecodable = false ∧
    load_raises AgentsFile.absent = false := by
  refine ⟨?_, rfl, rfl⟩
  decide

/-! ## Per-session metadata lookup (src/state.py, SessionInfo.from_file and
StateManager.get_session_info) -/

/-- Exception classes relevant to `SessionInfo.from_file` beyond the ones it
catches. -/
inductive PyExc where
  | attributeError
deriving DecidableEq

/-- The content of one per-session metadata file as seen by
`SessionInfo.from_file`: absent (`filepath.exists()` false), unreadable
(`IOError` while opening/reading), undecodable (`json.JSONDecodeError`), or
decodable to a JSON value. -/
inductive MetaFile where
  | absent
  | unreadable
  | undecodable
  | decoded (j : Json)

/-- `data.get(k, "")` for the string-valued SessionInfo fields (the hook
writes strings; a non-string value would be passed through untyped by the
dataclass and is modelled as the default). -/
def jsonFieldStr (fields : List (String × Json)) (k : String) : String :=
  match fields.find? (fun p => p.1 == k) with
  | some (_, Json.str s) => s
  | _ => ""

/-- `data.get(k)` for the optional string-valued SessionInfo fields. -/
def jsonFieldStrOpt (fields : List (String × Json)) (k : String) :
    Option String :=
  match fields.find? (fun p => p.1 == k) with
  | some (_, Json.str s) => some s
  | _ => none

/-- `SessionInfo.from_file`: returns `None` when the file is absent, and the
`try/except (json.JSONDecodeError, IOError)` turns an unreadable or
undecodable file into `None` as well; a decoded JSON object is turned into a
`SessionInfo` via `data.get` with defaults; on a decoded non-object,
`data.get` raises `AttributeError`, which the handler does not catch. -/
def SessionInfo.from_file (f : MetaFile) : Except PyExc (Option SessionInfo) :=
  match f with
  | MetaFile.absent => Except.ok none
  | MetaFile.unreadable => Except.ok none
  | MetaFile.undecodable => Except.ok none
  | MetaFile.decoded j =>
    match j with
    | Json.obj fields =>
      Except.ok (some
        { conversation_id := jsonFieldStr fields "conversation_id",
          transcript_path := jsonFieldStr fields "transcript_path",
          last_tool := jsonFieldStrOpt fields "last_tool",
          last_file := jsonFieldStrOpt fields "last_file",
          updated_at := jsonFieldStr fields "updated_at" })
    | _ => Except.error PyExc.attributeError

/-- `StateManager.get_session_info`: read `SESSIONS_DIR/{key}.json` via
`SessionInfo.from_file`, where `files` maps a session key to the current
content of its metadata file. -/
def get_session_info (files : String → MetaFile) (key : String) :
    Except PyExc (Option SessionInfo) :=
  SessionInfo.from_file (files key)

/-- C10: the SessionInfo lookup returns `None` rather than raising when the
metadata file is absent, unreadable, or contains malformed (undecodable)
JSON; consequently an agent whose metadata lookup yields `None` is treated as
non-recoverable and is deleted by prune when its session is not in the
(non-empty) valid set. -/
theorem get_session_info_none_and_pruned :
    (∀ (files : String → MetaFile) (key : String),
        files key = MetaFile.absent ∨ files key = MetaFile.unreadable ∨
          files key = MetaFile.undecodable →
        get_session_info files key = Except.ok none) ∧
    (∀ (s : StateManager) (infos : String → Option SessionInfo)
        (valid : List String) (agent_id : String) (a : Agent),
        valid ≠ [] → (agent_id, a) ∈ s.agents → a.tmux_session ∉ valid →
        infos a.tmux_session = none →
        (agent_id, a) ∉ (s.prune_dead_sessions infos valid).agents) := by
  constructor
  · intro files key h
    unfold get_session_info
    rcases h with h | h | h <;> rw [h] <;> rfl
  · intro s infos valid agent_id a hvalid hmem hnv hnone hcontra
    rw [prune_agents_filter s infos valid hvalid] at hcontra
    have hcond := (List.mem_filter.mp hcontra).2
    have hdead : agent_id ∈ deadIds s.agents infos valid :=
      mem_deadIds.mpr ⟨a, hmem, hnv, by rw [hnone]; rfl⟩
    simp [hdead] at hcond

/-- Witness for C10: an absent metadata file yields `None`, and with no
metadata at all the dead agent `agentW3` is pruned. -/
theorem get_session_info_none_and_pruned_witness :
    get_session_info (fun _ => MetaFile.absent) "s3" = Except.ok none ∧
    ("i3", agentW3) ∉
      (storeW.prune_dead_sessions (fun _ => none) ["s1"]).agents :=
  ⟨get_session_info_none_and_pruned.1 (fun _ => MetaFile.absent) "s3"
      (Or.inl rfl),
    get_session_info_none_and_pruned.2 storeW (fun _ => none) ["s1"] "i3"
      agentW3 (by decide) (by decide) (by decide) rfl⟩

/-- Witness for C4: in the concrete store the non-archived agent `agentW1`
appears in the active listing and therefore not in the archived listing. -/
theorem get_all_agents_partition_witness :
    agentW1 ∉ storeW.get_all_agents true :=
  (get_all_agents_partition storeW).2.1 agentW1 (by
    unfold StateManager.get_all_agents
    rw [List.mem_mergeSort]
    decide)
